import Mathlib

/-- JS `Map.get` / `Map.has` on an insertion-ordered association list. -/
def mlookup {α : Type} : List (String × α) → String → Option α
  | [], _ => none
  | (k, v) :: rest, key => if k = key then some v else mlookup rest key

/-- JS `Map.set`: update the value in place at an existing key, else append. -/
def mapSet {α : Type} : List (String × α) → String → α → List (String × α)
  | [], key, v => [(key, v)]
  | (k, w) :: rest, key, v =>
      if k = key then (key, v) :: rest else (k, w) :: mapSet rest key v

/-! ## ServiceManager (src/src/core/ServiceManager.js)

Factories are JS functions `registry → instance`; to keep the state type
non-recursive they are embedded as numeric ids, interpreted by an
environment `env : Nat → SM V → V` supplied to `SM.get`.  `SM.get` logs
every factory invocation as the pair (factory id, registry state passed as
the factory's argument), so "invoked exactly once, with the registry as its
only argument" is a statement about the log. -/

structure SM (V : Type) where
  services : List (String × V)
  factories : List (String × Nat)
  aliases : List (String × String)
  tags : List (String × List String)
  initialized : Bool
deriving DecidableEq, Repr

/-- Embeds `ServiceManager._registerTags`: push the service name onto each tag's list,
creating the list when absent. -/
def SM.registerTags (tagsMap : List (String × List String)) (serviceName : String)
    (tags : List String) : List (String × List String) :=
  tags.foldl
    (fun m tag =>
      match mlookup m tag with
      | some l => mapSet m tag (l ++ [serviceName])
      | none => mapSet (mapSet m tag []) tag [serviceName])
    tagsMap

/-- Embeds `ServiceManager.set(name, service, tags)`: throws when `services` already
has `name` (the JS code checks only `this.services`, not `this.factories`). -/
def SM.set {V : Type} (sm : SM V) (name : String) (service : V)
    (tags : List String) : Except String (SM V) :=
  if (mlookup sm.services name).isSome then
    .error ("Service \"" ++ name ++ "\" is already registered")
  else
    .ok { sm with
          services := mapSet sm.services name service,
          tags := if tags ≠ [] then SM.registerTags sm.tags name tags else sm.tags }

/-- Embeds `ServiceManager.setFactory(name, factory, tags)`: throws when either
`factories` or `services` already has `name`. -/
def SM.setFactory {V : Type} (sm : SM V) (name : String) (factory : Nat)
    (tags : List String) : Except String (SM V) :=
  if (mlookup sm.factories name).isSome ∨ (mlookup sm.services name).isSome then
    .error ("Service or factory \"" ++ name ++ "\" is already registered")
  else
    .ok { sm with
          factories := mapSet sm.factories name factory,
          tags := if tags ≠ [] then SM.registerTags sm.tags name tags else sm.tags }

/-- Embeds `ServiceManager.setAlias(alias, target)`. -/
def SM.setAlias {V : Type} (sm : SM V) (a : String) (target : String) :
    Except String (SM V) :=
  if (mlookup sm.aliases a).isSome then
    .error ("Alias \"" ++ a ++ "\" is already registered")
  else
    .ok { sm with aliases := mapSet sm.aliases a target }

/-- Embeds `ServiceManager.get(name)`: alias redirection first, then cached instance,
then factory (invoke, cache the product, log the call).  The JS recursion on
aliases is unbounded, so the embedding takes fuel; `none` covers both fuel
exhaustion and the thrown `Service not found` error.  The returned triple is
(value, updated registry, factory-call log). -/
def SM.get {V : Type} (env : Nat → SM V → V) :
    Nat → SM V → String → Option (V × SM V × List (Nat × SM V))
  | 0, _, _ => none
  | fuel + 1, sm, name =>
    match mlookup sm.aliases name with
    | some target => SM.get env fuel sm target
    | none =>
      match mlookup sm.services name with
      | some s => some (s, sm, [])
      | none =>
        match mlookup sm.factories name with
        | some fid =>
            let service := env fid sm
            some (service, { sm with services := mapSet sm.services name service },
                  [(fid, sm)])
        | none => none

def smEmpty : SM Nat := ⟨[], [], [], [], false⟩

/-! ## Engine lifecycle (src Engine.js)

An engine's lifecycle state is the pair of JS booleans `initialized`/`started`
(there is no separate terminal `stopped` flag in the source).  Subclass hooks
`_init`/`_start`/`_stop` are abstracted by whether they succeed or throw.
Every lifecycle call returns the resulting state, whether an error propagated,
and the trace of emitted events / hook invocations. -/

inductive Ev
  | beforeInit | hookInit | afterInit
  | beforeStart | hookStart | afterStart
  | beforeStop | hookStop | afterStop
deriving DecidableEq, Repr, Fintype

structure Hooks where
  initOk : Bool
  startOk : Bool
  stopOk : Bool
deriving DecidableEq, Repr, Fintype

structure EngineState where
  initialized : Bool
  started : Bool
deriving DecidableEq, Repr, Fintype

structure LRes where
  state : EngineState
  err : Bool
  trace : List Ev
deriving DecidableEq, Repr

/-- Embeds `Engine.init()`: return immediately when initialized; otherwise emit
`before_init`, run `_init` (a throw propagates with the flag still unset),
set `initialized`, emit `after_init`. -/
def Engine.init (h : Hooks) (e : EngineState) : LRes :=
  if e.initialized then ⟨e, false, []⟩
  else if h.initOk then
    ⟨{ e with initialized := true }, false, [.beforeInit, .hookInit, .afterInit]⟩
  else ⟨e, true, [.beforeInit, .hookInit]⟩

/-- Embeds `Engine.start()`: auto-init when not initialized (an init failure
propagates), no-op when already started, otherwise emit `before_start`,
run `_start`, set `started`, emit `after_start`. -/
def Engine.start (h : Hooks) (e : EngineState) : LRes :=
  let r := if e.initialized then ⟨e, false, []⟩ else Engine.init h e
  if r.err then r
  else if r.state.started then ⟨r.state, false, r.trace⟩
  else if h.startOk then
    ⟨{ r.state with started := true }, false,
      r.trace ++ [.beforeStart, .hookStart, .afterStart]⟩
  else ⟨r.state, true, r.trace ++ [.beforeStart, .hookStart]⟩

/-- Embeds `Engine.stop()`: no-op unless started; otherwise emit `before_stop`, run
`_stop`, set `started := false` (the source has no terminal stopped flag),
emit `after_stop`. -/
def Engine.stop (h : Hooks) (e : EngineState) : LRes :=
  if !e.started then ⟨e, false, []⟩
  else if h.stopOk then
    ⟨{ e with started := false }, false, [.beforeStop, .hookStop, .afterStop]⟩
  else ⟨e, true, [.beforeStop, .hookStop]⟩

/-! ## Flow container (src/src/core/Flow.js)

The container owns an insertion-ordered collection of engines (name, hooks,
state).  Its lifecycle methods loop over the engines (registration order for
init/start, reverse for stop) awaiting each engine's corresponding method; the
first engine error aborts the loop and propagates.  Results are
(new container state, error propagated?, trace of engine events tagged with
the engine name). -/

structure FlowOpts where
  config : Option Nat
  serviceManager : Option Nat
deriving DecidableEq, Repr

structure FlowState where
  opts : FlowOpts
  engines : List (String × Hooks × EngineState)
  config : Option Nat
  services : Option Nat
  initialized : Bool
  started : Bool
deriving DecidableEq, Repr

/-- The engine-iteration loop shared by Flow.init/start/stop: run `step` on
each engine in list order; on the first error, abort with the remaining
engines untouched. -/
def runSeq (step : Hooks → EngineState → LRes) :
    List (String × Hooks × EngineState) →
    List (String × Hooks × EngineState) × Bool × List (String × Ev)
  | [] => ([], false, [])
  | (n, h, e) :: rest =>
    let r := step h e
    if r.err then
      ((n, h, r.state) :: rest, true, r.trace.map (fun ev => (n, ev)))
    else
      let q := runSeq step rest
      ((n, h, r.state) :: q.1, q.2.1, r.trace.map (fun ev => (n, ev)) ++ q.2.2)

/-- Embeds `Flow.init()`: return immediately when initialized; otherwise adopt
`options.config`/`options.serviceManager`, init every engine in registration
order, and set `initialized` only when no engine threw. -/
def Flow.init (f : FlowState) : FlowState × Bool × List (String × Ev) :=
  if f.initialized then (f, false, [])
  else
    let f1 := { f with
      config := if f.opts.config.isSome then f.opts.config else f.config,
      services := if f.services.isNone && f.opts.serviceManager.isSome
                  then f.opts.serviceManager else f.services }
    let r := runSeq Engine.init f1.engines
    if r.2.1 then ({ f1 with engines := r.1 }, true, r.2.2)
    else ({ f1 with engines := r.1, initialized := true }, false, r.2.2)

/-- Embeds `Flow.start()`: auto-init when needed (propagating an init failure), no-op
when already started, otherwise start every engine in registration order and
set `started` only when no engine threw. -/
def Flow.start (f : FlowState) : FlowState × Bool × List (String × Ev) :=
  let p := if f.initialized then (f, false, ([] : List (String × Ev)))
           else Flow.init f
  if p.2.1 then p
  else if p.1.started then (p.1, false, p.2.2)
  else
    let r := runSeq Engine.start p.1.engines
    if r.2.1 then ({ p.1 with engines := r.1 }, true, p.2.2 ++ r.2.2)
    else ({ p.1 with engines := r.1, started := true }, false, p.2.2 ++ r.2.2)

/-- Embeds `Flow.stop()`: no-op unless started; otherwise stop every engine in
reverse registration order and clear `started` only when no engine threw
(the engine collection keeps its original order, with updated states). -/
def Flow.stop (f : FlowState) : FlowState × Bool × List (String × Ev) :=
  if !f.started then (f, false, [])
  else
    let r := runSeq Engine.stop f.engines.reverse
    if r.2.1 then ({ f with engines := r.1.reverse }, true, r.2.2)
    else ({ f with engines := r.1.reverse, started := false }, false, r.2.2)

def flowEmpty : FlowState := ⟨⟨none, none⟩, [], none, none, false, false⟩

def flowOne : FlowState :=
  ⟨⟨none, none⟩, [("e", ⟨true, true, true⟩, ⟨true, true⟩)], none, none, true, true⟩

/-- Event trace of a successful `Engine.start` from a non-started state
(init events first when the engine was not yet initialized). -/
def startTrace (e : EngineState) : List Ev :=
  (if e.initialized then [] else [.beforeInit, .hookInit, .afterInit]) ++
    [.beforeStart, .hookStart, .afterStart]

/-! ## HttpEngine (src/src/core/HttpEngine.js)

Request handling is embedded as a pure function over the engine's setup state
(route table, middleware chain, started flag).  Middlewares and route handlers
are abstracted by their observable behaviour at the engine boundary: the JS
value a middleware's awaited call returns and whether it throws; whether a
handler throws.  A request carries the raw data `_handleRequest` inspects.
The result records the (unchanged) engine state, the parsed context body, the
fallback response the engine itself wrote (404/500; `none` when middleware or
handler own the response), and the execution trace. -/

/-- JS values, as far as `result === false` can distinguish them. -/
inductive JsVal
  | vFalse | vTrue | vUndefined | vNull
  | vNum (n : Int) | vStr (s : String) | vObj
deriving DecidableEq, Repr

structure MW where
  id : Nat
  retval : JsVal
  throws : Bool
deriving DecidableEq, Repr

structure HandlerSpec where
  id : Nat
  throws : Bool
deriving DecidableEq, Repr

structure HttpState where
  routes : List (String × HandlerSpec)
  middlewares : List MW
  started : Bool
deriving DecidableEq, Repr

/-- JS `String.prototype.toUpperCase`, character by character (the route keys
in this development are ASCII). -/
def jsToUpper (s : String) : String := String.mk (s.data.map Char.toUpper)

/-- Embeds `addRoute(method, path, handler)`: key is `method.toUpperCase() + ":" + path`;
`Map.set` silently overwrites an existing entry. -/
def HttpState.addRoute (e : HttpState) (method path : String)
    (h : HandlerSpec) : HttpState :=
  { e with routes := mapSet e.routes (jsToUpper method ++ ":" ++ path) h }

/-- Embeds `use(middleware)`: append to the chain. -/
def HttpState.use (e : HttpState) (m : MW) : HttpState :=
  { e with middlewares := e.middlewares ++ [m] }

structure Request where
  method : String
  url : String
  contentType : String
  rawBody : String
  bodyReadFails : Bool
deriving DecidableEq, Repr

/-- Embeds `url.parse(req.url).pathname`: the part of the URL before any query or
fragment marker. -/
def pathnameOf (url : String) : String :=
  String.mk (url.data.takeWhile (fun c => c != '?' && c != '#'))

inductive CtxBody
  | noBody
  | jsonParsed (raw : String)
  | text (raw : String)
deriving DecidableEq, Repr

/-- Embeds `_parseBody(ctx)`: rejects when the request stream errors; otherwise a
non-empty body is JSON-decoded when the content type contains
`application/json` (decode failure falls back silently to the raw text), and
an empty body leaves `ctx.body = null`.  `jsonParses` abstracts whether
`JSON.parse` succeeds on the raw text. -/
def parseBodyResult (jsonParses : String → Bool) (req : Request) :
    Except Unit CtxBody :=
  if req.bodyReadFails then .error ()
  else if req.rawBody ≠ "" then
    if (req.contentType.splitOn "application/json").length > 1 then
      if jsonParses req.rawBody then .ok (.jsonParsed req.rawBody)
      else .ok (.text req.rawBody)
    else .ok (.text req.rawBody)
  else .ok .noBody

/-- A flat JSON object with string values — the exact shape of the two
fallback bodies `_handleRequest` stringifies. -/
structure JsonObj where
  fields : List (String × String)
deriving DecidableEq, Repr

/-- Embeds `JSON.stringify({ error: 'Not Found' })`. -/
def notFoundBody : JsonObj := ⟨[("error", "Not Found")]⟩

/-- Embeds `JSON.stringify({ error: 'Internal Server Error' })`. -/
def internalErrorBody : JsonObj := ⟨[("error", "Internal Server Error")]⟩

def JsonObj.hasErrorStringField (j : JsonObj) : Bool :=
  (mlookup j.fields "error").isSome

structure FallbackResp where
  status : Nat
  body : JsonObj
deriving DecidableEq, Repr

inductive Step
  | readBody
  | mwRun (i : Nat)
  | handlerRun (i : Nat)
  | resp404
  | resp500
deriving DecidableEq, Repr

/-- Outcome of the middleware loop: whether the chain completed, was stopped
by a strict-`false` return, or aborted on a throw — together with the ids of
the middlewares that actually ran, in execution order. -/
inductive MwOut
  | completed (ran : List Nat)
  | stopped (ran : List Nat)
  | threw (ran : List Nat)
deriving DecidableEq, Repr

/-- The middleware loop of `_handleRequest`: run each middleware in
registration order; a throw aborts (to be caught at top level); a strict
`=== false` return stops the chain. -/
def runMws : List MW → MwOut
  | [] => .completed []
  | m :: rest =>
    if m.throws then .threw [m.id]
    else if m.retval = JsVal.vFalse then .stopped [m.id]
    else
      match runMws rest with
      | .completed l => .completed (m.id :: l)
      | .stopped l => .stopped (m.id :: l)
      | .threw l => .threw (m.id :: l)

def MwOut.prependRan (l : List Nat) : MwOut → MwOut
  | .completed r => .completed (l ++ r)
  | .stopped r => .stopped (l ++ r)
  | .threw r => .threw (l ++ r)

structure HandleResult where
  state : HttpState
  ctxBody : CtxBody
  fallback : Option FallbackResp
  trace : List Step
deriving DecidableEq, Repr

/-- Middleware chain, then route lookup, of `_handleRequest` (after body
parsing): a middleware throw is caught and answered 500; a strict-`false`
return ends handling with whatever the middleware wrote as final; otherwise
the route table is consulted — a found handler runs (a throw is caught and
answered 500), a miss is answered 404. -/
def afterBody (e : HttpState) (routeKey : String) (b : CtxBody)
    (t0 : List Step) : HandleResult :=
  match runMws e.middlewares with
  | .threw ran =>
      ⟨e, b, some ⟨500, internalErrorBody⟩,
        t0 ++ ran.map Step.mwRun ++ [Step.resp500]⟩
  | .stopped ran => ⟨e, b, none, t0 ++ ran.map Step.mwRun⟩
  | .completed ran =>
      match mlookup e.routes routeKey with
      | some h =>
          if h.throws then
            ⟨e, b, some ⟨500, internalErrorBody⟩,
              t0 ++ ran.map Step.mwRun ++ [Step.handlerRun h.id, Step.resp500]⟩
          else ⟨e, b, none, t0 ++ ran.map Step.mwRun ++ [Step.handlerRun h.id]⟩
      | none =>
          ⟨e, b, some ⟨404, notFoundBody⟩,
            t0 ++ ran.map Step.mwRun ++ [Step.resp404]⟩

/-- Embeds `_handleRequest(req, res)`: parse the URL, build the context, accumulate
the body for POST/PUT/PATCH (a stream error is caught at top level and
answered 500), then run the middleware chain and route lookup.  The engine's
own state is never mutated. -/
def handleRequest (jsonParses : String → Bool) (e : HttpState)
    (req : Request) : HandleResult :=
  let path := pathnameOf req.url
  let routeKey := req.method ++ ":" ++ path
  if req.method = "POST" ∨ req.method = "PUT" ∨ req.method = "PATCH" then
    match parseBodyResult jsonParses req with
    | .error _ =>
        ⟨e, .noBody, some ⟨500, internalErrorBody⟩,
          [Step.readBody, Step.resp500]⟩
    | .ok b => afterBody e routeKey b [Step.readBody]
  else afterBody e routeKey .noBody []

/-- A trace step witnessing that the route-lookup phase ran (either the
handler was invoked or the 404 fallback was written). -/
def routePhaseStep : Step → Bool
  | Step.handlerRun _ => true
  | Step.resp404 => true
  | _ => false

/-! ## Theorems -/

/-!
Shallow embedding of the flow-server-framework core (ServiceManager, Engine,
Flow, HttpEngine) and proofs of the specification claims about it.

JS `Map` objects are embedded as association lists in insertion order, with
`mlookup` mirroring `Map.get`/`Map.has` and `mapSet` mirroring `Map.set`
(replace in place at an existing key, else append).
-/

theorem mlookup_mapSet_self {α : Type} (m : List (String × α)) (k : String) (v : α) :
    mlookup (mapSet m k v) k = some v := by
  induction m with
  | nil => simp [mapSet, mlookup]
  | cons hd tl ih =>
      obtain ⟨k', w⟩ := hd
      by_cases h : k' = k
      · simp [mapSet, h, mlookup]
      · simp [mapSet, h, mlookup, ih]

/-! ## Claim C1: duplicate-name check in `set` -/

/-- C1 counterexample: the claim says `set` must fail whenever the name already
holds an instance **or a factory**, but `ServiceManager.set` only checks
`this.services`.  Concretely: on the empty registry, `setFactory "a"` succeeds
and then `set "a"` also succeeds (and stores the instance), instead of failing
with a duplicate-name error. -/
theorem C1_counterexample :
    (SM.setFactory smEmpty "a" 0 []) = Except.ok (SM.mk [] [("a", 0)] [] [] false) ∧
    (SM.set (SM.mk ([] : List (String × Nat)) [("a", 0)] [] [] false) "a" 7 []) =
      Except.ok (SM.mk [("a", 7)] [("a", 0)] [] [] false) := by
  constructor
  · rfl
  · rfl

/-- C1 amended: `set` fails with the duplicate error exactly when the name
already holds a concrete instance (a factory registration under the name does
not block `set`), while `setFactory` fails exactly when the name already holds
either a factory or an instance. -/
theorem C1_set_checks_only_instances {V : Type} (sm : SM V) (name : String)
    (v : V) (fid : Nat) (tags : List String) :
    ((SM.set sm name v tags).isOk ↔ mlookup sm.services name = none) ∧
    ((SM.setFactory sm name fid tags).isOk ↔
      (mlookup sm.factories name = none ∧ mlookup sm.services name = none)) := by
  constructor
  · unfold SM.set
    cases h : mlookup sm.services name <;> simp [h, Except.isOk, Except.toBool]
  · unfold SM.setFactory
    cases h1 : mlookup sm.factories name <;>
      cases h2 : mlookup sm.services name <;>
        simp [h1, h2, Except.isOk, Except.toBool]

/-! ## Claim C2: is `stopped` terminal? -/

/-- C2 counterexample: with always-succeeding hooks, start then stop leaves the
engine at `initialized = true, started = false`; a subsequent `start()` runs
the start hook again (one more `hookStart` in its trace) and re-enters the
started state, so stopped is not terminal relative to started. -/
theorem C2_counterexample :
    (Engine.stop ⟨true, true, true⟩
        (Engine.start ⟨true, true, true⟩ ⟨false, false⟩).state).state =
      ⟨true, false⟩ ∧
    (Engine.start ⟨true, true, true⟩
        (Engine.stop ⟨true, true, true⟩
          (Engine.start ⟨true, true, true⟩ ⟨false, false⟩).state).state).state.started
      = true ∧
    ((Engine.start ⟨true, true, true⟩
        (Engine.stop ⟨true, true, true⟩
          (Engine.start ⟨true, true, true⟩ ⟨false, false⟩).state).state).trace.count
      Ev.hookStart) = 1 := by
  decide

/-! ## Claim C3: init-hook failure leaves the unit uninitialized -/

/-- C3: (engine) when an uninitialized engine's `_init` hook throws, `init()`
propagates the error and the state is exactly unchanged — the `initialized`
flag is not set; (container) whenever `Flow.init` propagates an error (an
engine's init threw), the container's `initialized` flag is still unset. -/
theorem C3_init_failure_leaves_uninitialized :
    (∀ (h : Hooks) (e : EngineState), e.initialized = false → h.initOk = false →
      Engine.init h e = ⟨e, true, [Ev.beforeInit, Ev.hookInit]⟩) ∧
    (∀ f : FlowState, (Flow.init f).2.1 = true →
      (Flow.init f).1.initialized = false) := by
  constructor
  · decide
  · intro f herr
    unfold Flow.init at *
    by_cases hi : f.initialized
    · simp [hi] at herr
    · simp only [hi, if_false] at herr ⊢
      by_cases hr : (runSeq Engine.init f.engines).2.1
      · simp [hr, hi]
      · simp [hr] at herr

theorem C3_init_failure_witness :
    (Engine.init ⟨false, true, true⟩ ⟨false, false⟩ =
      ⟨⟨false, false⟩, true, [Ev.beforeInit, Ev.hookInit]⟩) ∧
    ((Flow.init ⟨⟨none, none⟩, [("a", ⟨false, true, true⟩, ⟨false, false⟩)],
        none, none, false, false⟩).1.initialized = false) :=
  ⟨C3_init_failure_leaves_uninitialized.1 ⟨false, true, true⟩ ⟨false, false⟩ rfl rfl,
   C3_init_failure_leaves_uninitialized.2
     ⟨⟨none, none⟩, [("a", ⟨false, true, true⟩, ⟨false, false⟩)],
       none, none, false, false⟩ (by decide)⟩

/-! ## Claim C4: lifecycle idempotence -/

/-- Engines: a successfully initialized/started/stopped unit makes the second
identical call an immediate no-op (state unchanged, no events, no error), the
first call having run the hook exactly once; `stop()` on a never-started unit
is a no-op. -/
theorem C4_engine_idempotent :
    (∀ (h : Hooks) (e : EngineState), e.initialized = false → h.initOk = true →
      (Engine.init h e).err = false ∧
      (Engine.init h e).trace.count Ev.hookInit = 1 ∧
      Engine.init h (Engine.init h e).state = ⟨(Engine.init h e).state, false, []⟩) ∧
    (∀ (h : Hooks) (e : EngineState), e.started = false → h.initOk = true →
      h.startOk = true →
      (Engine.start h e).err = false ∧
      (Engine.start h e).trace.count Ev.hookStart = 1 ∧
      Engine.start h (Engine.start h e).state = ⟨(Engine.start h e).state, false, []⟩) ∧
    (∀ (h : Hooks) (e : EngineState), e.started = true → h.stopOk = true →
      (Engine.stop h e).err = false ∧
      (Engine.stop h e).trace.count Ev.hookStop = 1 ∧
      Engine.stop h (Engine.stop h e).state = ⟨(Engine.stop h e).state, false, []⟩) ∧
    (∀ (h : Hooks) (e : EngineState), e.started = false →
      Engine.stop h e = ⟨e, false, []⟩) := by
  refine ⟨by decide, by decide, by decide, by decide⟩

theorem flowInit_noop (f : FlowState) (hi : f.initialized = true) :
    Flow.init f = (f, false, []) := by
  simp [Flow.init, hi]

theorem flowStart_noop (f : FlowState) (hi : f.initialized = true)
    (hs : f.started = true) : Flow.start f = (f, false, []) := by
  simp [Flow.start, hi, hs]

theorem flowStop_noop (f : FlowState) (hs : f.started = false) :
    Flow.stop f = (f, false, []) := by
  simp [Flow.stop, hs]

theorem flowInit_success (f : FlowState) (h : (Flow.init f).2.1 = false) :
    (Flow.init f).1.initialized = true := by
  unfold Flow.init at *
  by_cases hi : f.initialized
  · simp [hi]
  · simp only [hi, if_false] at h ⊢
    by_cases hr : (runSeq Engine.init f.engines).2.1
    · simp [hr] at h
    · simp [hr]

theorem flowStart_success (f : FlowState) (h : (Flow.start f).2.1 = false) :
    (Flow.start f).1.initialized = true ∧ (Flow.start f).1.started = true := by
  unfold Flow.start at *
  by_cases hi : f.initialized
  · simp only [hi, if_true] at h ⊢
    by_cases hs : f.started
    · simp [hs, hi]
    · simp only [hs, if_false] at h ⊢
      by_cases hr : (runSeq Engine.start f.engines).2.1
      · simp [hr] at h
      · simp [hr, hi]
  · simp only [hi, if_false] at h ⊢
    cases hp : (Flow.init f).2.1 with
    | true => simp [hp] at h
    | false =>
      have hinit : (Flow.init f).1.initialized = true := flowInit_success f hp
      simp only [hp, Bool.false_eq_true, if_false] at h ⊢
      by_cases hs : (Flow.init f).1.started
      · simp [hs, hinit]
      · simp only [hs, if_false] at h ⊢
        by_cases hr : (runSeq Engine.start (Flow.init f).1.engines).2.1
        · simp [hr] at h
        · simp [hr, hinit]

theorem flowStop_success (f : FlowState) (h : (Flow.stop f).2.1 = false) :
    (Flow.stop f).1.started = false := by
  unfold Flow.stop at *
  by_cases hs : f.started
  · simp only [hs] at h ⊢
    by_cases hr : (runSeq Engine.stop f.engines.reverse).2.1
    · simp [hr] at h
    · simp [hr]
  · simp only [Bool.not_eq_true] at hs
    simp [hs]

/-- C4: lifecycle idempotence.  Engines: (1) a fresh `init()` runs the init
hook exactly once and the second `init()` is an immediate no-op; (2) same for
`start()`; (3) same for `stop()` from a started state, the second `stop()`
being a no-op returning the unit unchanged; (4) `stop()` on a never-started
unit is a no-op.  The container behaves identically: whenever
`init()`/`start()`/`stop()` succeeds, repeating the call returns the container
unchanged with no error and an empty event trace (so no engine hook reruns),
and `stop()` on a never-started container is a no-op. -/
theorem C4_lifecycle_idempotent :
    ((∀ (h : Hooks) (e : EngineState), e.initialized = false → h.initOk = true →
      (Engine.init h e).err = false ∧
      (Engine.init h e).trace.count Ev.hookInit = 1 ∧
      Engine.init h (Engine.init h e).state = ⟨(Engine.init h e).state, false, []⟩) ∧
    (∀ (h : Hooks) (e : EngineState), e.started = false → h.initOk = true →
      h.startOk = true →
      (Engine.start h e).err = false ∧
      (Engine.start h e).trace.count Ev.hookStart = 1 ∧
      Engine.start h (Engine.start h e).state = ⟨(Engine.start h e).state, false, []⟩) ∧
    (∀ (h : Hooks) (e : EngineState), e.started = true → h.stopOk = true →
      (Engine.stop h e).err = false ∧
      (Engine.stop h e).trace.count Ev.hookStop = 1 ∧
      Engine.stop h (Engine.stop h e).state = ⟨(Engine.stop h e).state, false, []⟩) ∧
    (∀ (h : Hooks) (e : EngineState), e.started = false →
      Engine.stop h e = ⟨e, false, []⟩)) ∧
    ((∀ f : FlowState, (Flow.init f).2.1 = false →
      Flow.init (Flow.init f).1 = ((Flow.init f).1, false, [])) ∧
    (∀ f : FlowState, (Flow.start f).2.1 = false →
      Flow.start (Flow.start f).1 = ((Flow.start f).1, false, [])) ∧
    (∀ f : FlowState, f.started = false → Flow.stop f = (f, false, [])) ∧
    (∀ f : FlowState, (Flow.stop f).2.1 = false →
      Flow.stop (Flow.stop f).1 = ((Flow.stop f).1, false, []))) := by
  refine ⟨C4_engine_idempotent, ?_, ?_, ?_, ?_⟩
  · intro f h
    exact flowInit_noop _ (flowInit_success f h)
  · intro f h
    exact flowStart_noop _ (flowStart_success f h).1 (flowStart_success f h).2
  · intro f h
    exact flowStop_noop f h
  · intro f h
    exact flowStop_noop _ (flowStop_success f h)

theorem C4_lifecycle_idempotent_witness :
    ((Engine.init ⟨true, true, true⟩ ⟨false, false⟩).err = false ∧
      (Engine.init ⟨true, true, true⟩ ⟨false, false⟩).trace.count Ev.hookInit = 1 ∧
      Engine.init ⟨true, true, true⟩ (Engine.init ⟨true, true, true⟩ ⟨false, false⟩).state
        = ⟨(Engine.init ⟨true, true, true⟩ ⟨false, false⟩).state, false, []⟩) ∧
    ((Engine.start ⟨true, true, true⟩ ⟨false, false⟩).err = false ∧
      (Engine.start ⟨true, true, true⟩ ⟨false, false⟩).trace.count Ev.hookStart = 1 ∧
      Engine.start ⟨true, true, true⟩ (Engine.start ⟨true, true, true⟩ ⟨false, false⟩).state
        = ⟨(Engine.start ⟨true, true, true⟩ ⟨false, false⟩).state, false, []⟩) ∧
    ((Engine.stop ⟨true, true, true⟩ ⟨true, true⟩).err = false ∧
      (Engine.stop ⟨true, true, true⟩ ⟨true, true⟩).trace.count Ev.hookStop = 1 ∧
      Engine.stop ⟨true, true, true⟩ (Engine.stop ⟨true, true, true⟩ ⟨true, true⟩).state
        = ⟨(Engine.stop ⟨true, true, true⟩ ⟨true, true⟩).state, false, []⟩) ∧
    (Engine.stop ⟨true, true, true⟩ ⟨true, false⟩ = ⟨⟨true, false⟩, false, []⟩) ∧
    (Flow.init (Flow.init flowEmpty).1 = ((Flow.init flowEmpty).1, false, [])) ∧
    (Flow.start (Flow.start flowEmpty).1 = ((Flow.start flowEmpty).1, false, [])) ∧
    (Flow.stop flowEmpty = (flowEmpty, false, [])) ∧
    (Flow.stop (Flow.stop flowEmpty).1 = ((Flow.stop flowEmpty).1, false, [])) :=
  ⟨C4_lifecycle_idempotent.1.1 ⟨true, true, true⟩ ⟨false, false⟩ rfl rfl,
   C4_lifecycle_idempotent.1.2.1 ⟨true, true, true⟩ ⟨false, false⟩ rfl rfl rfl,
   C4_lifecycle_idempotent.1.2.2.1 ⟨true, true, true⟩ ⟨true, true⟩ rfl rfl,
   C4_lifecycle_idempotent.1.2.2.2 ⟨true, true, true⟩ ⟨true, false⟩ rfl,
   C4_lifecycle_idempotent.2.1 flowEmpty (by decide),
   C4_lifecycle_idempotent.2.2.1 flowEmpty (by decide),
   C4_lifecycle_idempotent.2.2.2.1 flowEmpty rfl,
   C4_lifecycle_idempotent.2.2.2.2 flowEmpty (by decide)⟩

/-! ## Engine-loop lemmas -/

theorem engineStart_ok (h : Hooks) (e : EngineState) (h1 : h.startOk = true)
    (h2 : e.started = false) (h3 : e.initialized = true ∨ h.initOk = true) :
    Engine.start h e = ⟨⟨true, true⟩, false, startTrace e⟩ := by
  revert h e
  decide

theorem engineStop_ok (h : Hooks) (e : EngineState) (h1 : h.stopOk = true)
    (h2 : e.started = true) :
    Engine.stop h e =
      ⟨⟨e.initialized, false⟩, false, [.beforeStop, .hookStop, .afterStop]⟩ := by
  revert h e
  decide

theorem runSeq_start_ok (es : List (String × Hooks × EngineState))
    (hc : ∀ x ∈ es, x.2.1.startOk = true ∧ x.2.2.started = false ∧
      (x.2.2.initialized = true ∨ x.2.1.initOk = true)) :
    runSeq Engine.start es =
      (es.map (fun x => (x.1, x.2.1, EngineState.mk true true)), false,
       (es.map (fun x => (startTrace x.2.2).map (fun ev => (x.1, ev)))).flatten) := by
  induction es with
  | nil => rfl
  | cons a rest ih =>
    obtain ⟨n, h, e⟩ := a
    have ha := hc _ (List.mem_cons_self _ _)
    have hrest := ih (fun x hx => hc x (List.mem_cons_of_mem _ hx))
    simp [runSeq, engineStart_ok h e ha.1 ha.2.1 ha.2.2, hrest]

theorem runSeq_stop_ok (es : List (String × Hooks × EngineState))
    (hc : ∀ x ∈ es, x.2.1.stopOk = true ∧ x.2.2.started = true) :
    runSeq Engine.stop es =
      (es.map (fun x => (x.1, x.2.1, EngineState.mk x.2.2.initialized false)), false,
       (es.map (fun x =>
          [(x.1, Ev.beforeStop), (x.1, Ev.hookStop), (x.1, Ev.afterStop)])).flatten) := by
  induction es with
  | nil => rfl
  | cons a rest ih =>
    obtain ⟨n, h, e⟩ := a
    have ha := hc _ (List.mem_cons_self _ _)
    have hrest := ih (fun x hx => hc x (List.mem_cons_of_mem _ hx))
    simp [runSeq, engineStop_ok h e ha.1 ha.2, hrest]

/-! ## Claim C2 (amended): stopped is not terminal -/

/-- C2 amended: stopping is not terminal, for engines and for the container
alike.  An engine: a successful `stop()` returns the unit to
`initialized, not started`, and a subsequent `start()` with a succeeding start
hook runs the start hook again (exactly once) and re-enters the started state
without error.  The container: after a successful `stop()` of a started
container whose engines all stop cleanly, `start()` succeeds again, re-enters
`started`, and its trace shows every engine's start events re-running in
registration order. -/
theorem C2_stop_not_terminal :
    (∀ (h : Hooks) (e : EngineState), e.initialized = true → e.started = true →
      h.stopOk = true → h.startOk = true →
      (Engine.stop h e).err = false ∧
      (Engine.stop h e).state = ⟨true, false⟩ ∧
      (Engine.start h (Engine.stop h e).state).err = false ∧
      (Engine.start h (Engine.stop h e).state).state.started = true ∧
      (Engine.start h (Engine.stop h e).state).trace.count Ev.hookStart = 1) ∧
    (∀ f : FlowState, f.initialized = true → f.started = true →
      (∀ x ∈ f.engines, x.2.1.startOk = true ∧ x.2.1.stopOk = true ∧
        x.2.2.initialized = true ∧ x.2.2.started = true) →
      (Flow.stop f).2.1 = false ∧
      (Flow.stop f).1.started = false ∧
      (Flow.start (Flow.stop f).1).2.1 = false ∧
      (Flow.start (Flow.stop f).1).1.started = true ∧
      (Flow.start (Flow.stop f).1).2.2 =
        (f.engines.map (fun x =>
          [(x.1, Ev.beforeStart), (x.1, Ev.hookStart), (x.1, Ev.afterStart)])).flatten) := by
  constructor
  · decide
  · intro f hi hs hc
    have hrev : ∀ x ∈ f.engines.reverse,
        x.2.1.stopOk = true ∧ x.2.2.started = true := by
      intro x hx
      have h := hc x (List.mem_reverse.mp hx)
      exact ⟨h.2.1, h.2.2.2⟩
    have hstop : Flow.stop f =
        ({ f with
            engines := f.engines.map
              (fun x => (x.1, x.2.1, EngineState.mk x.2.2.initialized false)),
            started := false }, false,
         (f.engines.reverse.map (fun x =>
            [(x.1, Ev.beforeStop), (x.1, Ev.hookStop), (x.1, Ev.afterStop)])).flatten) := by
      simp [Flow.stop, hs, runSeq_stop_ok _ hrev, List.map_reverse,
        List.reverse_reverse]
    have hcond2 : ∀ y ∈ f.engines.map
        (fun x => (x.1, x.2.1, EngineState.mk x.2.2.initialized false)),
        y.2.1.startOk = true ∧ y.2.2.started = false ∧
          (y.2.2.initialized = true ∨ y.2.1.initOk = true) := by
      intro y hy
      obtain ⟨x, hx, rfl⟩ := List.mem_map.mp hy
      exact ⟨(hc x hx).1, rfl, Or.inl (hc x hx).2.2.1⟩
    have hstart := runSeq_start_ok _ hcond2
    rw [hstop]
    refine ⟨rfl, rfl, ?_, ?_, ?_⟩
    · simp [Flow.start, hi, hstart]
    · simp [Flow.start, hi, hstart]
    · simp [Flow.start, hi, hstart, List.map_map]
      congr 1
      apply List.map_congr_left
      intro x hx
      simp [Function.comp, startTrace, (hc x hx).2.2.1]

theorem C2_stop_not_terminal_witness :
    ((Engine.stop ⟨true, true, true⟩ ⟨true, true⟩).err = false ∧
     (Engine.stop ⟨true, true, true⟩ ⟨true, true⟩).state = ⟨true, false⟩ ∧
     (Engine.start ⟨true, true, true⟩
       (Engine.stop ⟨true, true, true⟩ ⟨true, true⟩).state).err = false ∧
     (Engine.start ⟨true, true, true⟩
       (Engine.stop ⟨true, true, true⟩ ⟨true, true⟩).state).state.started = true ∧
     (Engine.start ⟨true, true, true⟩
       (Engine.stop ⟨true, true, true⟩ ⟨true, true⟩).state).trace.count Ev.hookStart
       = 1) ∧
    ((Flow.stop flowOne).2.1 = false ∧
     (Flow.stop flowOne).1.started = false ∧
     (Flow.start (Flow.stop flowOne).1).2.1 = false ∧
     (Flow.start (Flow.stop flowOne).1).1.started = true ∧
     (Flow.start (Flow.stop flowOne).1).2.2 =
       (flowOne.engines.map (fun x =>
         [(x.1, Ev.beforeStart), (x.1, Ev.hookStart), (x.1, Ev.afterStart)])).flatten) :=
  ⟨C2_stop_not_terminal.1 ⟨true, true, true⟩ ⟨true, true⟩ rfl rfl rfl rfl,
   C2_stop_not_terminal.2 flowOne rfl rfl (by decide)⟩

/-! ## Claim C5: container start order, reverse stop order, abort on error -/

/-- C5: for a container holding engines `[A, B, C]` in registration order
(each initialized, not started): (1) with all start hooks succeeding,
`start()` starts the engines exactly in order A, B, C (the event trace lists
each engine's start events in that order) and marks the container started;
(2) with all stop hooks succeeding, `stop()` of the started container stops
the engines exactly in reverse order C, B, A; (3) if B's start hook throws,
`start()` propagates the error, the trace shows only A's start events and B's
attempt (no events for C), C's state is untouched, and the container is not
marked started. -/
theorem C5_container_order (opts : FlowOpts) (cfg svc : Option Nat)
    (nA nB nC : String) (hA hB hC : Hooks)
    (hA1 : hA.startOk = true) (hB1 : hB.startOk = true) (hC1 : hC.startOk = true)
    (hA2 : hA.stopOk = true) (hB2 : hB.stopOk = true) (hC2 : hC.stopOk = true) :
    (Flow.start ⟨opts, [(nA, hA, ⟨true, false⟩), (nB, hB, ⟨true, false⟩),
        (nC, hC, ⟨true, false⟩)], cfg, svc, true, false⟩ =
      (⟨opts, [(nA, hA, ⟨true, true⟩), (nB, hB, ⟨true, true⟩),
          (nC, hC, ⟨true, true⟩)], cfg, svc, true, true⟩, false,
       [(nA, .beforeStart), (nA, .hookStart), (nA, .afterStart),
        (nB, .beforeStart), (nB, .hookStart), (nB, .afterStart),
        (nC, .beforeStart), (nC, .hookStart), (nC, .afterStart)])) ∧
    (Flow.stop ⟨opts, [(nA, hA, ⟨true, true⟩), (nB, hB, ⟨true, true⟩),
        (nC, hC, ⟨true, true⟩)], cfg, svc, true, true⟩ =
      (⟨opts, [(nA, hA, ⟨true, false⟩), (nB, hB, ⟨true, false⟩),
          (nC, hC, ⟨true, false⟩)], cfg, svc, true, false⟩, false,
       [(nC, .beforeStop), (nC, .hookStop), (nC, .afterStop),
        (nB, .beforeStop), (nB, .hookStop), (nB, .afterStop),
        (nA, .beforeStop), (nA, .hookStop), (nA, .afterStop)])) ∧
    (∀ hBbad : Hooks, hBbad.startOk = false →
      Flow.start ⟨opts, [(nA, hA, ⟨true, false⟩), (nB, hBbad, ⟨true, false⟩),
          (nC, hC, ⟨true, false⟩)], cfg, svc, true, false⟩ =
        (⟨opts, [(nA, hA, ⟨true, true⟩), (nB, hBbad, ⟨true, false⟩),
            (nC, hC, ⟨true, false⟩)], cfg, svc, true, false⟩, true,
         [(nA, .beforeStart), (nA, .hookStart), (nA, .afterStart),
          (nB, .beforeStart), (nB, .hookStart)])) := by
  refine ⟨?_, ?_, ?_⟩
  · simp [Flow.start, runSeq, Engine.start, hA1, hB1, hC1]
  · simp [Flow.stop, runSeq, Engine.stop, hA2, hB2, hC2]
  · intro hBbad hBfail
    simp [Flow.start, runSeq, Engine.start, hA1, hBfail]

theorem C5_container_order_witness :
    (Flow.start ⟨⟨none, none⟩, [("A", ⟨true, true, true⟩, ⟨true, false⟩),
        ("B", ⟨true, true, true⟩, ⟨true, false⟩),
        ("C", ⟨true, true, true⟩, ⟨true, false⟩)], none, none, true, false⟩ =
      (⟨⟨none, none⟩, [("A", ⟨true, true, true⟩, ⟨true, true⟩),
          ("B", ⟨true, true, true⟩, ⟨true, true⟩),
          ("C", ⟨true, true, true⟩, ⟨true, true⟩)], none, none, true, true⟩, false,
       [("A", .beforeStart), ("A", .hookStart), ("A", .afterStart),
        ("B", .beforeStart), ("B", .hookStart), ("B", .afterStart),
        ("C", .beforeStart), ("C", .hookStart), ("C", .afterStart)])) ∧
    (Flow.stop ⟨⟨none, none⟩, [("A", ⟨true, true, true⟩, ⟨true, true⟩),
        ("B", ⟨true, true, true⟩, ⟨true, true⟩),
        ("C", ⟨true, true, true⟩, ⟨true, true⟩)], none, none, true, true⟩ =
      (⟨⟨none, none⟩, [("A", ⟨true, true, true⟩, ⟨true, false⟩),
          ("B", ⟨true, true, true⟩, ⟨true, false⟩),
          ("C", ⟨true, true, true⟩, ⟨true, false⟩)], none, none, true, false⟩, false,
       [("C", .beforeStop), ("C", .hookStop), ("C", .afterStop),
        ("B", .beforeStop), ("B", .hookStop), ("B", .afterStop),
        ("A", .beforeStop), ("A", .hookStop), ("A", .afterStop)])) ∧
    (Flow.start ⟨⟨none, none⟩, [("A", ⟨true, true, true⟩, ⟨true, false⟩),
        ("B", ⟨true, false, true⟩, ⟨true, false⟩),
        ("C", ⟨true, true, true⟩, ⟨true, false⟩)], none, none, true, false⟩ =
      (⟨⟨none, none⟩, [("A", ⟨true, true, true⟩, ⟨true, true⟩),
          ("B", ⟨true, false, true⟩, ⟨true, false⟩),
          ("C", ⟨true, true, true⟩, ⟨true, false⟩)], none, none, true, false⟩, true,
       [("A", .beforeStart), ("A", .hookStart), ("A", .afterStart),
        ("B", .beforeStart), ("B", .hookStart)])) :=
  ⟨(C5_container_order ⟨none, none⟩ none none "A" "B" "C"
      ⟨true, true, true⟩ ⟨true, true, true⟩ ⟨true, true, true⟩
      rfl rfl rfl rfl rfl rfl).1,
   (C5_container_order ⟨none, none⟩ none none "A" "B" "C"
      ⟨true, true, true⟩ ⟨true, true, true⟩ ⟨true, true, true⟩
      rfl rfl rfl rfl rfl rfl).2.1,
   (C5_container_order ⟨none, none⟩ none none "A" "B" "C"
      ⟨true, true, true⟩ ⟨true, true, true⟩ ⟨true, true, true⟩
      rfl rfl rfl rfl rfl rfl).2.2 ⟨true, false, true⟩ rfl⟩

/-! ## Claim C6: factory caching in `ServiceManager.get` -/

/-- C6: for a registry where `name` is registered as a factory (and is neither
an instance nor an alias), the first `get` invokes the factory exactly once
with the registry itself as its only argument, caches the product under
`name`, and returns it; the second `get` returns the identical cached value
with no further factory invocation.  The combined call log across both
resolutions is the single entry `(fid, sm)`. -/
theorem C6_factory_cached_once {V : Type} (env : Nat → SM V → V) (sm : SM V)
    (name : String) (fid : Nat) (fuel fuel2 : Nat)
    (ha : mlookup sm.aliases name = none)
    (hs : mlookup sm.services name = none)
    (hf : mlookup sm.factories name = some fid) :
    SM.get env (fuel + 1) sm name =
      some (env fid sm,
        { sm with services := mapSet sm.services name (env fid sm) },
        [(fid, sm)]) ∧
    SM.get env (fuel2 + 1)
        { sm with services := mapSet sm.services name (env fid sm) } name =
      some (env fid sm,
        { sm with services := mapSet sm.services name (env fid sm) },
        []) := by
  constructor
  · simp [SM.get, ha, hs, hf]
  · simp [SM.get, ha, mlookup_mapSet_self]

theorem C6_factory_cached_once_witness :
    (SM.get (fun _ _ => (42 : Nat)) 1 (SM.mk [] [("svc", 0)] [] [] false) "svc" =
      some (42, SM.mk [("svc", 42)] [("svc", 0)] [] [] false,
        [(0, SM.mk [] [("svc", 0)] [] [] false)])) ∧
    (SM.get (fun _ _ => (42 : Nat)) 1 (SM.mk [("svc", 42)] [("svc", 0)] [] [] false)
        "svc" =
      some (42, SM.mk [("svc", 42)] [("svc", 0)] [] [] false, [])) :=
  C6_factory_cached_once (fun _ _ => (42 : Nat))
    (SM.mk [] [("svc", 0)] [] [] false) "svc" 0 0 0 rfl rfl rfl

/-! ## Middleware-chain lemmas -/

theorem prependRan_nil (o : MwOut) : o.prependRan [] = o := by
  cases o <;> rfl

theorem runMws_pass_prefix (pre rest : List MW)
    (h : ∀ m ∈ pre, m.throws = false ∧ m.retval ≠ JsVal.vFalse) :
    runMws (pre ++ rest) = (runMws rest).prependRan (pre.map (fun m => m.id)) := by
  induction pre with
  | nil => simp [prependRan_nil]
  | cons m tl ih =>
    have hm := h m (List.mem_cons_self _ _)
    have htl := ih (fun x hx => h x (List.mem_cons_of_mem _ hx))
    simp only [List.cons_append, runMws, hm.1, Bool.false_eq_true, if_false,
      hm.2, ite_false, List.append_eq]
    rw [htl]
    cases runMws rest <;> simp [MwOut.prependRan]

theorem runMws_all_pass (ms : List MW)
    (h : ∀ m ∈ ms, m.throws = false ∧ m.retval ≠ JsVal.vFalse) :
    runMws ms = .completed (ms.map (fun m => m.id)) := by
  have h1 := runMws_pass_prefix ms [] h
  simpa [runMws, MwOut.prependRan] using h1

/-! ## Route-key injectivity -/

theorem append_colon_inj {a b : List Char} :
    ∀ {a2 b2 : List Char}, ':' ∉ a → ':' ∉ a2 →
    a ++ ':' :: b = a2 ++ ':' :: b2 → a = a2 ∧ b = b2 := by
  induction a with
  | nil =>
    intro a2 b2 _ ha2 h
    cases a2 with
    | nil => simpa using h
    | cons x t =>
      simp only [List.nil_append, List.cons_append, List.cons.injEq] at h
      exact absurd (h.1 ▸ List.mem_cons_self x t) ha2
  | cons x t ih =>
    intro a2 b2 ha ha2 h
    cases a2 with
    | nil =>
      simp only [List.cons_append, List.nil_append, List.cons.injEq] at h
      exact absurd (h.1 ▸ List.mem_cons_self x t) ha
    | cons y s =>
      simp only [List.cons_append, List.cons.injEq] at h
      obtain ⟨rfl, h2⟩ := h
      have := ih (fun hx => ha (List.mem_cons_of_mem _ hx))
        (fun hx => ha2 (List.mem_cons_of_mem _ hx)) h2
      exact ⟨by rw [this.1], this.2⟩

theorem routeKey_GET_foo (m p : String) :
    m ++ ":" ++ p = "GET:/foo" ↔ (m = "GET" ∧ p = "/foo") := by
  constructor
  · intro h
    have hd : m.data ++ ':' :: p.data = "GET:/foo".data := by
      have h2 := congrArg String.data h
      simpa [String.data_append] using h2
    have hcount : List.count ':' m.data + (List.count ':' p.data + 1) = 1 := by
      have h3 := congrArg (List.count ':') hd
      simpa [List.count_append, List.count_cons] using h3
    have hm0 : List.count ':' m.data = 0 := by omega
    have hnotin : ':' ∉ m.data := by
      intro hmem
      exact absurd hm0 (Nat.pos_iff_ne_zero.mp (List.count_pos_iff.mpr hmem))
    have hsplit : m.data ++ ':' :: p.data = "GET".data ++ ':' :: "/foo".data := hd
    have hres := append_colon_inj hnotin (by decide) hsplit
    refine ⟨?_, ?_⟩
    · cases m with
      | mk d => exact congrArg String.mk hres.1
    · cases p with
      | mk d => exact congrArg String.mk hres.2
  · rintro ⟨rfl, rfl⟩
    rfl

theorem parseBody_ok (jp : String → Bool) (req : Request)
    (hb : req.bodyReadFails = false) :
    ∃ b, parseBodyResult jp req = Except.ok b := by
  unfold parseBodyResult
  rw [hb]
  simp only [Bool.false_eq_true, if_false]
  split
  · split
    · split
      · exact ⟨_, rfl⟩
      · exact ⟨_, rfl⟩
    · exact ⟨_, rfl⟩
  · exact ⟨_, rfl⟩

theorem handleRequest_nonbody (jp : String → Bool) (e : HttpState) (req : Request)
    (hnp : ¬(req.method = "POST" ∨ req.method = "PUT" ∨ req.method = "PATCH")) :
    handleRequest jp e req =
      afterBody e (req.method ++ ":" ++ pathnameOf req.url) .noBody [] := by
  simp [handleRequest, hnp]

theorem handleRequest_body (jp : String → Bool) (e : HttpState) (req : Request)
    (b : CtxBody)
    (hp : req.method = "POST" ∨ req.method = "PUT" ∨ req.method = "PATCH")
    (hb : parseBodyResult jp req = Except.ok b) :
    handleRequest jp e req =
      afterBody e (req.method ++ ":" ++ pathnameOf req.url) b [Step.readBody] := by
  simp [handleRequest, hp, hb]

theorem afterBody_completed (e : HttpState) (key : String) (b : CtxBody)
    (t0 : List Step) (ran : List Nat)
    (hr : runMws e.middlewares = .completed ran) :
    afterBody e key b t0 =
      (match mlookup e.routes key with
      | some h =>
          if h.throws then
            ⟨e, b, some ⟨500, internalErrorBody⟩,
              t0 ++ ran.map Step.mwRun ++ [Step.handlerRun h.id, Step.resp500]⟩
          else ⟨e, b, none, t0 ++ ran.map Step.mwRun ++ [Step.handlerRun h.id]⟩
      | none =>
          ⟨e, b, some ⟨404, notFoundBody⟩,
            t0 ++ ran.map Step.mwRun ++ [Step.resp404]⟩) := by
  unfold afterBody
  rw [hr]

/-! ## Claim C7: routing exactness and the 404 fallback -/

/-- C7: on an engine whose route table holds exactly a handler registered at
`GET /foo` via `addRoute`, and whose middleware chain neither throws nor stops
(and whose request body reads cleanly): the handler runs exactly when the
request's method is `GET` and its parsed pathname is exactly `/foo` (so not
for `GET /foo/` and not for `POST /foo`), and every non-matching request is
answered with status 404 and a JSON body with an `error` string field. -/
theorem C7_routing_exact (jp : String → Bool) (mws : List MW) (hs : HandlerSpec)
    (st : Bool) (req : Request)
    (hmw : ∀ m ∈ mws, m.throws = false ∧ m.retval ≠ JsVal.vFalse)
    (hb : req.bodyReadFails = false) :
    (Step.handlerRun hs.id ∈
        (handleRequest jp (HttpState.addRoute ⟨[], mws, st⟩ "GET" "/foo" hs)
          req).trace ↔
      (req.method = "GET" ∧ pathnameOf req.url = "/foo")) ∧
    (¬(req.method = "GET" ∧ pathnameOf req.url = "/foo") →
      (handleRequest jp (HttpState.addRoute ⟨[], mws, st⟩ "GET" "/foo" hs)
          req).fallback = some ⟨404, notFoundBody⟩ ∧
        notFoundBody.hasErrorStringField = true) := by
  have hup : (jsToUpper "GET" ++ ":" ++ "/foo") = "GET:/foo" := by decide
  have he : HttpState.addRoute ⟨[], mws, st⟩ "GET" "/foo" hs =
      ⟨[("GET:/foo", hs)], mws, st⟩ := by
    simp [HttpState.addRoute, hup, mapSet]
  rw [he]
  have hrun : runMws (HttpState.mk [("GET:/foo", hs)] mws st).middlewares =
      .completed (mws.map (fun m => m.id)) := runMws_all_pass mws hmw
  by_cases hpost : req.method = "POST" ∨ req.method = "PUT" ∨ req.method = "PATCH"
  · have hm : ¬(req.method = "GET" ∧ pathnameOf req.url = "/foo") := by
      rintro ⟨hg, _⟩
      rcases hpost with h | h | h <;> simp [hg] at h
    have hkey : mlookup (HttpState.mk [("GET:/foo", hs)] mws st).routes
        (req.method ++ ":" ++ pathnameOf req.url) = none := by
      have hne : ¬("GET:/foo" = req.method ++ ":" ++ pathnameOf req.url) := by
        intro h
        exact hm ((routeKey_GET_foo _ _).mp h.symm)
      simp [mlookup, hne]
    obtain ⟨b, hbok⟩ := parseBody_ok jp req hb
    rw [handleRequest_body jp _ req b hpost hbok,
      afterBody_completed _ _ _ _ _ hrun, hkey]
    refine ⟨?_, fun _ => ⟨rfl, rfl⟩⟩
    simp [hm]
  · rw [handleRequest_nonbody jp _ req hpost,
      afterBody_completed _ _ _ _ _ hrun]
    by_cases hmatch : req.method = "GET" ∧ pathnameOf req.url = "/foo"
    · have hkey : mlookup (HttpState.mk [("GET:/foo", hs)] mws st).routes
          (req.method ++ ":" ++ pathnameOf req.url) = some hs := by
        have h1 : req.method ++ ":" ++ pathnameOf req.url = "GET:/foo" :=
          (routeKey_GET_foo _ _).mpr hmatch
        simp [mlookup, h1]
      rw [hkey]
      refine ⟨?_, fun hcon => absurd hmatch hcon⟩
      by_cases ht : hs.throws <;> simp [ht, hmatch]
    · have hkey : mlookup (HttpState.mk [("GET:/foo", hs)] mws st).routes
          (req.method ++ ":" ++ pathnameOf req.url) = none := by
        have hne : ¬("GET:/foo" = req.method ++ ":" ++ pathnameOf req.url) := by
          intro h
          exact hmatch ((routeKey_GET_foo _ _).mp h.symm)
        simp [mlookup, hne]
      rw [hkey]
      refine ⟨?_, fun _ => ⟨rfl, rfl⟩⟩
      simp [hmatch]

theorem C7_routing_exact_witness :
    (Step.handlerRun ((⟨0, false⟩ : HandlerSpec)).id ∈
        (handleRequest (fun _ => false)
          (HttpState.addRoute ⟨[], [], false⟩ "GET" "/foo" ⟨0, false⟩)
          ⟨"GET", "/foo", "", "", false⟩).trace ↔
      (("GET" : String) = "GET" ∧ pathnameOf "/foo" = "/foo")) ∧
    (¬(("GET" : String) = "GET" ∧ pathnameOf "/foo" = "/foo") →
      (handleRequest (fun _ => false)
          (HttpState.addRoute ⟨[], [], false⟩ "GET" "/foo" ⟨0, false⟩)
          ⟨"GET", "/foo", "", "", false⟩).fallback = some ⟨404, notFoundBody⟩ ∧
        notFoundBody.hasErrorStringField = true) :=
  C7_routing_exact (fun _ => false) [] ⟨0, false⟩ false
    ⟨"GET", "/foo", "", "", false⟩ (by simp) rfl

/-! ## Claim C8: per-request error containment -/

theorem afterBody_threw (e : HttpState) (key : String) (b : CtxBody)
    (t0 : List Step) (ran : List Nat)
    (hr : runMws e.middlewares = .threw ran) :
    afterBody e key b t0 =
      ⟨e, b, some ⟨500, internalErrorBody⟩,
        t0 ++ ran.map Step.mwRun ++ [Step.resp500]⟩ := by
  unfold afterBody
  rw [hr]

theorem afterBody_stopped (e : HttpState) (key : String) (b : CtxBody)
    (t0 : List Step) (ran : List Nat)
    (hr : runMws e.middlewares = .stopped ran) :
    afterBody e key b t0 = ⟨e, b, none, t0 ++ ran.map Step.mwRun⟩ := by
  unfold afterBody
  rw [hr]

theorem afterBody_state (e : HttpState) (key : String) (b : CtxBody)
    (t0 : List Step) : (afterBody e key b t0).state = e := by
  unfold afterBody
  rcases runMws e.middlewares with ran | ran | ran
  · rcases mlookup e.routes key with _ | h
    · rfl
    · by_cases ht : h.throws <;> simp [ht]
  · rfl
  · rfl

theorem handleRequest_state (jp : String → Bool) (e : HttpState)
    (req : Request) : (handleRequest jp e req).state = e := by
  unfold handleRequest
  by_cases hp : req.method = "POST" ∨ req.method = "PUT" ∨ req.method = "PATCH"
  · simp only [hp, if_true]
    rcases parseBodyResult jp req with _ | b
    · rfl
    · exact afterBody_state ..
  · simp only [hp, if_false]
    exact afterBody_state ..

theorem runMws_cons_throw (m : MW) (post : List MW) (hm : m.throws = true) :
    runMws (m :: post) = .threw [m.id] := by
  simp [runMws, hm]

theorem runMws_cons_stop (m : MW) (post : List MW) (hm : m.throws = false)
    (hf : m.retval = JsVal.vFalse) :
    runMws (m :: post) = .stopped [m.id] := by
  simp [runMws, hm, hf]

theorem runMws_cons_pass (m : MW) (post : List MW) (hm : m.throws = false)
    (hf : m.retval ≠ JsVal.vFalse) :
    runMws (m :: post) = (runMws post).prependRan [m.id] := by
  simp only [runMws, hm, Bool.false_eq_true, if_false, hf, ite_false]
  cases runMws post <;> simp [MwOut.prependRan]

theorem prependRan_append (o : MwOut) (l1 l2 : List Nat) :
    (o.prependRan l2).prependRan l1 = o.prependRan (l1 ++ l2) := by
  cases o <;> simp [MwOut.prependRan]

/-- C8: errors are contained per request.  (1) `_handleRequest` never mutates
the engine's state (route table, middleware list, started flag); (2) a body
read that errors on a POST/PUT/PATCH request is answered 500 with a JSON
`error` body; (3) a middleware that throws (after passing middlewares) is
answered 500; (4) a route handler that throws (after a passing chain) is
answered 500; (5) a subsequent request is handled exactly as if the first had
never happened. -/
theorem C8_error_containment (jp : String → Bool) (e : HttpState)
    (req : Request) :
    ((handleRequest jp e req).state = e) ∧
    ((req.method = "POST" ∨ req.method = "PUT" ∨ req.method = "PATCH") →
      req.bodyReadFails = true →
      (handleRequest jp e req).fallback = some ⟨500, internalErrorBody⟩ ∧
        internalErrorBody.hasErrorStringField = true) ∧
    (∀ pre m post, e.middlewares = pre ++ m :: post →
      (∀ x ∈ pre, x.throws = false ∧ x.retval ≠ JsVal.vFalse) →
      m.throws = true → req.bodyReadFails = false →
      (handleRequest jp e req).fallback = some ⟨500, internalErrorBody⟩) ∧
    (∀ hsp : HandlerSpec,
      (∀ x ∈ e.middlewares, x.throws = false ∧ x.retval ≠ JsVal.vFalse) →
      mlookup e.routes (req.method ++ ":" ++ pathnameOf req.url) = some hsp →
      hsp.throws = true → req.bodyReadFails = false →
      (handleRequest jp e req).fallback = some ⟨500, internalErrorBody⟩) ∧
    (∀ req2 : Request,
      handleRequest jp (handleRequest jp e req).state req2 =
        handleRequest jp e req2) := by
  refine ⟨handleRequest_state jp e req, ?_, ?_, ?_, ?_⟩
  · intro hp hbf
    have hbe : parseBodyResult jp req = .error () := by
      unfold parseBodyResult
      rw [hbf]
      simp
    unfold handleRequest
    simp [hp, hbe]
    rfl
  · intro pre m post hmw hpre hm hb
    have hr : runMws e.middlewares = .threw (pre.map (fun x => x.id) ++ [m.id]) := by
      rw [hmw, runMws_pass_prefix pre _ hpre, runMws_cons_throw m post hm]
      rfl
    by_cases hp : req.method = "POST" ∨ req.method = "PUT" ∨ req.method = "PATCH"
    · obtain ⟨b, hbok⟩ := parseBody_ok jp req hb
      rw [handleRequest_body jp e req b hp hbok, afterBody_threw e _ b _ _ hr]
    · rw [handleRequest_nonbody jp e req hp, afterBody_threw e _ _ _ _ hr]
  · intro hsp hmw hkey ht hb
    have hr := runMws_all_pass e.middlewares hmw
    by_cases hp : req.method = "POST" ∨ req.method = "PUT" ∨ req.method = "PATCH"
    · obtain ⟨b, hbok⟩ := parseBody_ok jp req hb
      rw [handleRequest_body jp e req b hp hbok,
        afterBody_completed _ _ _ _ _ hr, hkey]
      simp [ht]
    · rw [handleRequest_nonbody jp e req hp,
        afterBody_completed _ _ _ _ _ hr, hkey]
      simp [ht]
  · intro req2
    rw [handleRequest_state jp e req]

theorem C8_error_containment_witness :
    ((handleRequest (fun _ => false) (HttpState.mk [] [] false)
        ⟨"GET", "/x", "", "", false⟩).state = HttpState.mk [] [] false) ∧
    ((handleRequest (fun _ => false) (HttpState.mk [] [] false)
        ⟨"POST", "/x", "", "", true⟩).fallback = some ⟨500, internalErrorBody⟩ ∧
      internalErrorBody.hasErrorStringField = true) ∧
    ((handleRequest (fun _ => false)
        (HttpState.mk [] [MW.mk 1 JsVal.vUndefined true] false)
        ⟨"GET", "/x", "", "", false⟩).fallback = some ⟨500, internalErrorBody⟩) ∧
    ((handleRequest (fun _ => false)
        (HttpState.mk [("GET:/boom", ⟨7, true⟩)] [] false)
        ⟨"GET", "/boom", "", "", false⟩).fallback =
      some ⟨500, internalErrorBody⟩) ∧
    (handleRequest (fun _ => false)
        (handleRequest (fun _ => false) (HttpState.mk [] [] false)
          ⟨"GET", "/x", "", "", false⟩).state
        ⟨"GET", "/y", "", "", false⟩ =
      handleRequest (fun _ => false) (HttpState.mk [] [] false)
        ⟨"GET", "/y", "", "", false⟩) :=
  ⟨(C8_error_containment (fun _ => false) (HttpState.mk [] [] false)
      ⟨"GET", "/x", "", "", false⟩).1,
   (C8_error_containment (fun _ => false) (HttpState.mk [] [] false)
      ⟨"POST", "/x", "", "", true⟩).2.1 (Or.inl rfl) rfl,
   (C8_error_containment (fun _ => false)
      (HttpState.mk [] [MW.mk 1 JsVal.vUndefined true] false)
      ⟨"GET", "/x", "", "", false⟩).2.2.1 [] ⟨1, JsVal.vUndefined, true⟩ []
      rfl (by simp) rfl rfl,
   (C8_error_containment (fun _ => false)
      (HttpState.mk [("GET:/boom", ⟨7, true⟩)] [] false)
      ⟨"GET", "/boom", "", "", false⟩).2.2.2.1 ⟨7, true⟩ (by simp)
      (by decide) rfl rfl,
   (C8_error_containment (fun _ => false) (HttpState.mk [] [] false)
      ⟨"GET", "/x", "", "", false⟩).2.2.2.2 ⟨"GET", "/y", "", "", false⟩⟩

/-! ## Claim C9: middleware short-circuit on strict `false` -/

/-- C9: middlewares run strictly in registration order; when a middleware
returns the stop sentinel after the preceding ones passed, the trace records
exactly the passed middlewares (in order) followed by that middleware and
nothing else — no later middleware, no route handler, and no 404/500 fallback
is written, so whatever response the stopping middleware produced is final. -/
theorem C9_middleware_short_circuit (jp : String → Bool) (e : HttpState)
    (req : Request) (pre : List MW) (m : MW) (post : List MW)
    (hmw : e.middlewares = pre ++ m :: post)
    (hpre : ∀ x ∈ pre, x.throws = false ∧ x.retval ≠ JsVal.vFalse)
    (hmt : m.throws = false) (hmf : m.retval = JsVal.vFalse)
    (hb : req.bodyReadFails = false) :
    (handleRequest jp e req).fallback = none ∧
    (handleRequest jp e req).trace =
      (if req.method = "POST" ∨ req.method = "PUT" ∨ req.method = "PATCH"
        then [Step.readBody] else []) ++
      (pre.map (fun x => x.id) ++ [m.id]).map Step.mwRun := by
  have hr : runMws e.middlewares =
      .stopped (pre.map (fun x => x.id) ++ [m.id]) := by
    rw [hmw, runMws_pass_prefix pre _ hpre, runMws_cons_stop m post hmt hmf]
    rfl
  by_cases hp : req.method = "POST" ∨ req.method = "PUT" ∨ req.method = "PATCH"
  · obtain ⟨b, hbok⟩ := parseBody_ok jp req hb
    rw [handleRequest_body jp e req b hp hbok, afterBody_stopped e _ b _ _ hr]
    simp [hp]
  · rw [handleRequest_nonbody jp e req hp, afterBody_stopped e _ _ _ _ hr]
    simp [hp]

theorem C9_middleware_short_circuit_witness :
    (handleRequest (fun _ => false)
        (HttpState.mk [("GET:/x", ⟨9, false⟩)]
          [MW.mk 1 JsVal.vTrue false, MW.mk 2 JsVal.vFalse false,
           MW.mk 3 JsVal.vTrue false] false)
        ⟨"GET", "/x", "", "", false⟩).fallback = none ∧
    (handleRequest (fun _ => false)
        (HttpState.mk [("GET:/x", ⟨9, false⟩)]
          [MW.mk 1 JsVal.vTrue false, MW.mk 2 JsVal.vFalse false,
           MW.mk 3 JsVal.vTrue false] false)
        ⟨"GET", "/x", "", "", false⟩).trace =
      (if ("GET" : String) = "POST" ∨ ("GET" : String) = "PUT" ∨
          ("GET" : String) = "PATCH"
        then [Step.readBody] else []) ++
      ([MW.mk 1 JsVal.vTrue false].map (fun x => x.id) ++
        [(MW.mk 2 JsVal.vFalse false).id]).map Step.mwRun :=
  C9_middleware_short_circuit (fun _ => false)
    (HttpState.mk [("GET:/x", ⟨9, false⟩)]
      [MW.mk 1 JsVal.vTrue false, MW.mk 2 JsVal.vFalse false,
       MW.mk 3 JsVal.vTrue false] false)
    ⟨"GET", "/x", "", "", false⟩
    [MW.mk 1 JsVal.vTrue false] (MW.mk 2 JsVal.vFalse false)
    [MW.mk 3 JsVal.vTrue false] rfl (by decide) rfl rfl rfl

/-! ## Claim C10: the stop sentinel is strictly `false` -/

/-- C10: the middleware stop sentinel is strictly the JS value `false`.
With the middlewares before `m` passing and `m` not throwing: if `m`'s
awaited return value is anything other than the exact value `false`
(undefined, null, 0, empty string, any truthy value, ...), the chain
proceeds past `m` into the rest of the chain — and when the rest also
passes, request handling reaches the route-lookup phase; only the exact
value `false` stops the chain. -/
theorem C10_stop_sentinel_strict_false (jp : String → Bool) (e : HttpState)
    (req : Request) (pre : List MW) (m : MW) (post : List MW)
    (hmw : e.middlewares = pre ++ m :: post)
    (hpre : ∀ x ∈ pre, x.throws = false ∧ x.retval ≠ JsVal.vFalse)
    (hmt : m.throws = false) :
    (m.retval ≠ JsVal.vFalse →
      runMws e.middlewares =
        (runMws post).prependRan (pre.map (fun x => x.id) ++ [m.id])) ∧
    (m.retval = JsVal.vFalse →
      runMws e.middlewares = .stopped (pre.map (fun x => x.id) ++ [m.id])) ∧
    (m.retval ≠ JsVal.vFalse →
      (∀ x ∈ post, x.throws = false ∧ x.retval ≠ JsVal.vFalse) →
      req.bodyReadFails = false →
      (handleRequest jp e req).trace.any routePhaseStep = true) := by
  refine ⟨?_, ?_, ?_⟩
  · intro hne
    rw [hmw, runMws_pass_prefix pre _ hpre, runMws_cons_pass m post hmt hne,
      prependRan_append]
  · intro heq
    rw [hmw, runMws_pass_prefix pre _ hpre, runMws_cons_stop m post hmt heq]
    rfl
  · intro hne hpost hb
    have hall : ∀ x ∈ e.middlewares, x.throws = false ∧ x.retval ≠ JsVal.vFalse := by
      rw [hmw]
      intro x hx
      rcases List.mem_append.mp hx with h | h
      · exact hpre x h
      · rcases List.mem_cons.mp h with rfl | h2
        · exact ⟨hmt, hne⟩
        · exact hpost x h2
    have hr := runMws_all_pass e.middlewares hall
    have htail : ∀ (t0 : List Step),
        (afterBody e (req.method ++ ":" ++ pathnameOf req.url) CtxBody.noBody
          t0).trace.any routePhaseStep = true ∧
        ∀ b, (afterBody e (req.method ++ ":" ++ pathnameOf req.url) b
          t0).trace.any routePhaseStep = true := by
      intro t0
      constructor
      · rw [afterBody_completed _ _ _ _ _ hr]
        rcases mlookup e.routes (req.method ++ ":" ++ pathnameOf req.url)
          with _ | h
        · simp [routePhaseStep]
        · by_cases ht : h.throws <;> simp [ht, routePhaseStep]
      · intro b
        rw [afterBody_completed _ _ _ _ _ hr]
        rcases mlookup e.routes (req.method ++ ":" ++ pathnameOf req.url)
          with _ | h
        · simp [routePhaseStep]
        · by_cases ht : h.throws <;> simp [ht, routePhaseStep]
    by_cases hp : req.method = "POST" ∨ req.method = "PUT" ∨ req.method = "PATCH"
    · obtain ⟨b, hbok⟩ := parseBody_ok jp req hb
      rw [handleRequest_body jp e req b hp hbok]
      exact (htail [Step.readBody]).2 b
    · rw [handleRequest_nonbody jp e req hp]
      exact (htail []).1

theorem C10_stop_sentinel_strict_false_witness :
    (runMws [MW.mk 5 JsVal.vUndefined false] =
      (runMws []).prependRan
        (([] : List MW).map (fun x => x.id) ++
          [(MW.mk 5 JsVal.vUndefined false).id])) ∧
    (runMws [MW.mk 6 JsVal.vFalse false] =
      MwOut.stopped (([] : List MW).map (fun x => x.id) ++
        [(MW.mk 6 JsVal.vFalse false).id])) ∧
    ((handleRequest (fun _ => false)
        (HttpState.mk [] [MW.mk 5 JsVal.vUndefined false] false)
        ⟨"GET", "/x", "", "", false⟩).trace.any routePhaseStep = true) :=
  ⟨(C10_stop_sentinel_strict_false (fun _ => false)
      (HttpState.mk [] [MW.mk 5 JsVal.vUndefined false] false)
      ⟨"GET", "/x", "", "", false⟩ [] (MW.mk 5 JsVal.vUndefined false) []
      rfl (by simp) rfl).1 (by decide),
   (C10_stop_sentinel_strict_false (fun _ => false)
      (HttpState.mk [] [MW.mk 6 JsVal.vFalse false] false)
      ⟨"GET", "/x", "", "", false⟩ [] (MW.mk 6 JsVal.vFalse false) []
      rfl (by simp) rfl).2.1 rfl,
   (C10_stop_sentinel_strict_false (fun _ => false)
      (HttpState.mk [] [MW.mk 5 JsVal.vUndefined false] false)
      ⟨"GET", "/x", "", "", false⟩ [] (MW.mk 5 JsVal.vUndefined false) []
      rfl (by simp) rfl).2.2 (by decide) (by simp) rfl⟩
